import Mathlib

/-!
Verification of the Velero dashboard resource plugin (backup / restore /
schedule list, detail, create and delete operations) against its
specification.  The Go sources are shallowly embedded: the loosely typed
`map[string]interface` documents handled by `unstructured` become a `Json`
value type, Go slices (which distinguish nil from empty) become `GoSlice`,
and every operation of interest becomes a total Lean function mirroring the
Go control flow.  Wall-clock reads (`time.Now()`) are made explicit by a
`now : Nat` parameter.
-/

/-- Model of a Go `interface` value produced by `encoding/json.Unmarshal`:
strings, numbers (JSON numbers, modelled as integers), booleans, null,
arrays and string-keyed objects. -/
inductive Json where
  | str (s : String)
  | num (n : Int)
  | bool (b : Bool)
  | null
  | arr (xs : List Json)
  | obj (fields : List (String × Json))

/-- Lookup of a key in a JSON object's field list (Go map indexing; the
object literals built by the code have distinct keys). -/
def jsonLookup (fields : List (String × Json)) (k : String) : Option Json :=
  match fields with
  | [] => none
  | (k', v) :: rest => if k' = k then some v else jsonLookup rest k

/-- Walk a path of field names through nested JSON objects, as
`unstructured.NestedFieldNoCopy` does. -/
def nestedField : Json → List String → Option Json
  | v, [] => some v
  | Json.obj fs, k :: ks =>
    match jsonLookup fs k with
    | some v => nestedField v ks
    | none => none
  | _, _ :: _ => none

/-- `unstructured.NestedString`: the value at the path when it exists and is
a string (`found = true` in Go), `none` otherwise. -/
def nestedString (j : Json) (path : List String) : Option String :=
  match nestedField j path with
  | some (Json.str s) => some s
  | _ => none

/-- `unstructured.NestedStringSlice`: the value at the path when it is an
array whose elements are all strings. -/
def nestedStringSlice (j : Json) (path : List String) : Option (List String) :=
  match nestedField j path with
  | some (Json.arr xs) =>
    xs.foldr (fun x acc =>
      match x, acc with
      | Json.str s, some ss => some (s :: ss)
      | _, _ => none) (some [])
  | _ => none

/-- Model of the Go standard library `time.Parse(time.RFC3339, s)` on the
canonical UTC form `YYYY-MM-DDTHH:MM:SSZ` produced by the Kubernetes API:
the result is the digit string read as a number, which orders
chronologically on this form.  (The stdlib also accepts offsets and
fractional seconds; no claim depends on those forms.) -/
def parseRFC3339 (s : String) : Option Nat :=
  let cs := s.toList
  if cs.length = 20 then
    let at_ := fun (i : Nat) => cs.getD i ' '
    let sepOk := at_ 4 = '-' && at_ 7 = '-' && at_ 10 = 'T' &&
                 at_ 13 = ':' && at_ 16 = ':' && at_ 19 = 'Z'
    let digitIdx := [0, 1, 2, 3, 5, 6, 8, 9, 11, 12, 14, 15, 17, 18]
    if sepOk && digitIdx.all (fun i => (at_ i).isDigit) then
      some (digitIdx.foldl (fun acc i => acc * 10 + ((at_ i).toNat - 48)) 0)
    else none
  else none

/-- The closed set of ordering primitives used to compare extracted field
values: strings (lexical) and times (chronological, as parsed instants).
The quantity variant is unused by the embedded call sites. -/
inductive ComparableValue where
  | str (s : String)
  | time (t : Nat)
  deriving DecidableEq

/-- `compareTo` of a ComparableValue: total order within a variant;
comparison across variants is undefined behaviour per the spec and is
modelled as `eq` (the embedded call sites never mix variants). -/
def ComparableValue.compareTo : ComparableValue → ComparableValue → Ordering
  | .str a, .str b => compare a b
  | .time a, .time b => compare a b
  | _, _ => .eq

/-- `contains` of a ComparableValue: substring match for strings, equality
for times. -/
def ComparableValue.containsValue : ComparableValue → String → Bool
  | .str a, v => decide (v.toList <:+: a.toList)
  | .time _, _ => false

/-- Modelled from the spec: the property-name vocabulary of the dataselect
package (`dataselect.NameProperty` and friends), whose source is not under
src/. -/
def nameProperty : String := "name"

/-- Modelled from the spec: `dataselect.CreationTimestampProperty`. -/
def creationTimestampProperty : String := "creationTimestamp"

/-- Modelled from the spec: `dataselect.NamespaceProperty`. -/
def namespaceProperty : String := "namespace"

/-- Modelled from the spec: `dataselect.StatusProperty`. -/
def statusProperty : String := "status"

/-- A page request: `itemsPerPage = 0` models the spec's "no limit"
(nonpositive) case;  `page` is 1-indexed. -/
structure PaginationQuery where
  itemsPerPage : Nat
  page : Nat
  deriving DecidableEq

/-- Modelled from the spec: the immutable query specification — ANDed
(property, matchValue) filter pairs, ordered (property, ascending) sort
keys, and a page request. -/
structure DataSelectQuery where
  filterBy : List (String × String)
  sortBy : List (String × Bool)
  pagination : PaginationQuery

/-- Modelled from the spec: an item passes filtering iff for every filter
pair the extracted property value contains the match value; an unknown
property (no value) fails the filter. -/
def passesFilter (getProp : α → String → Option ComparableValue)
    (filterBy : List (String × String)) (cell : α) : Bool :=
  filterBy.all fun pv =>
    match getProp cell pv.1 with
    | some cv => cv.containsValue pv.2
    | none => false

/-- Modelled from the spec: lexicographic multi-key comparison — ties on
key i are broken by key i+1; a descending key flips the comparison; keys
without values on either side compare equal. -/
def compareByKeys (getProp : α → String → Option ComparableValue)
    (keys : List (String × Bool)) (a b : α) : Ordering :=
  match keys with
  | [] => .eq
  | (p, asc) :: rest =>
    let ord :=
      match getProp a p, getProp b p with
      | some u, some v => u.compareTo v
      | _, _ => Ordering.eq
    let ord := if asc then ord else ord.swap
    match ord with
    | .eq => compareByKeys getProp rest a b
    | o => o

/-- Insert into a sorted list, after every element not strictly greater:
equal elements keep their original relative order (stability). -/
def insertSorted (lt : α → α → Bool) (x : α) : List α → List α
  | [] => [x]
  | y :: ys => if lt y x then y :: insertSorted lt x ys else x :: y :: ys

/-- Stable insertion sort. -/
def insertionSort (lt : α → α → Bool) : List α → List α
  | [] => []
  | x :: xs => insertSorted lt x (insertionSort lt xs)

/-- Modelled from the spec: the pagination step — `start = (page-1) *
itemsPerPage`, out-of-range pages give an empty slice, `itemsPerPage = 0`
(the spec's nonpositive case) is the identity. -/
def paginate (pq : PaginationQuery) (xs : List α) : List α :=
  if pq.itemsPerPage = 0 then xs
  else
    let start := (pq.page - 1) * pq.itemsPerPage
    if xs.length ≤ start then []
    else (xs.drop start).take pq.itemsPerPage

/-- Modelled from the spec: `dataselect.GenericDataSelectWithFilter`
(source not under src/) — filter, then stable multi-key sort, then
paginate; returns the page together with the count after filtering alone. -/
def genericDataSelectWithFilter (getProp : α → String → Option ComparableValue)
    (cells : List α) (q : DataSelectQuery) : List α × Nat :=
  let filtered := cells.filter (passesFilter getProp q.filterBy)
  let sorted := insertionSort
    (fun a b => compareByKeys getProp q.sortBy a b = Ordering.lt) filtered
  let paged := paginate q.pagination sorted
  (paged, filtered.length)

/-- `BackupCell.GetProperty` (src backup/common.go): projects an
unstructured backup item onto a comparable value.  `now` is the value
`time.Now()` would return at the moment of the call; `none` models the Go
`nil` returned for unknown property names. -/
def backupCellGetProperty (now : Nat) (cell : Json) (name : String) :
    Option ComparableValue :=
  if name = nameProperty then
    match nestedString cell ["metadata", "name"] with
    | some n => some (.str n)
    | none => some (.str "")
  else if name = creationTimestampProperty then
    match nestedString cell ["metadata", "creationTimestamp"] with
    | some s =>
      match parseRFC3339 s with
      | some t => some (.time t)
      | none => some (.time now)
    | none => some (.time now)
  else if name = namespaceProperty then
    match nestedString cell ["metadata", "namespace"] with
    | some ns => some (.str ns)
    | none => some (.str "")
  else if name = statusProperty then
    match nestedString cell ["status", "phase"] with
    | some st => some (.str st)
    | none => some (.str "Unknown")
  else none

/-- A Go slice, which distinguishes nil from an allocated empty slice:
`encoding/json` serializes nil as `null` and an empty non-nil slice as an
empty array. -/
inductive GoSlice (α : Type) where
  | nilSlice : GoSlice α
  | mk : List α → GoSlice α
  deriving DecidableEq

/-- Go `append` of one element: appending to a nil slice allocates. -/
def GoSlice.push : GoSlice α → α → GoSlice α
  | .nilSlice, x => .mk [x]
  | .mk xs, x => .mk (xs ++ [x])

/-- Go `len`, which is 0 on a nil slice. -/
def GoSlice.length : GoSlice α → Nat
  | .nilSlice => 0
  | .mk xs => xs.length

def GoSlice.toList : GoSlice α → List α
  | .nilSlice => []
  | .mk xs => xs

/-- `types.ObjectMeta` of the dashboard types package (external to src/):
the metadata fields the embedded code reads or writes.  `nspace` stands for
the Go field `Namespace` (a reserved word in Lean). -/
structure ObjectMeta where
  name : String := ""
  nspace : String := ""
  uid : String := ""
  creationTimestamp : Option Nat := none
  deriving DecidableEq

/-- `types.TypeMeta` of the dashboard types package (external to src/). -/
structure TypeMeta where
  kind : String := ""
  deriving DecidableEq

/-- `types.ListMeta` of the dashboard types package (external to src/);
its single field carries the total count and serializes as `totalItems`. -/
structure ListMeta where
  totalItems : Nat := 0
  deriving DecidableEq

/-- `common.ResourceStatus` (external to src/): the aggregate phase
counters for a resource list. -/
structure ResourceStatus where
  running : Nat := 0
  pending : Nat := 0
  failed : Nat := 0
  succeeded : Nat := 0
  deriving DecidableEq

/-- `BackupStatus` (src, part_002): the inferred status of one backup.
`status` is the Go `BackupStatusType` string; the `Conditions` field is
never assigned by the embedded functions and is omitted. -/
structure BackupStatus where
  status : String
  message : String
  deriving DecidableEq

/-- The Go constant `BackupStatusNew`. -/
def backupStatusNew : String := "New"

/-- The Go constant `BackupStatusInProgress`. -/
def backupStatusInProgress : String := "InProgress"

/-- The Go constant `BackupStatusCompleted`. -/
def backupStatusCompleted : String := "Completed"

/-- The Go constant `BackupStatusFailed`. -/
def backupStatusFailed : String := "Failed"

/-- `getBackupStatusFromSingle` (src backup/common.go): classify one
backup's `status.phase` into a `BackupStatus`, defaulting to `New` for an
absent or unrecognized phase, and carry `status.failureReason` as the
message. -/
def getBackupStatusFromSingle (item : Json) : BackupStatus :=
  let status : BackupStatus := { status := backupStatusNew, message := "" }
  let status :=
    match nestedString item ["status", "phase"] with
    | some phase =>
      if phase = "New" then { status with status := backupStatusNew }
      else if phase = "InProgress" then { status with status := backupStatusInProgress }
      else if phase = "Completed" then { status with status := backupStatusCompleted }
      else if phase = "Failed" then { status with status := backupStatusFailed }
      else { status with status := backupStatusNew }
    | none => status
  match nestedString item ["status", "failureReason"] with
  | some message => { status with message := message }
  | none => status

/-- `getBackupStatus` (src, part_002): textually identical classification
used by the dynamic-client backup list conversion. -/
def getBackupStatus (item : Json) : BackupStatus :=
  let status : BackupStatus := { status := backupStatusNew, message := "" }
  let status :=
    match nestedString item ["status", "phase"] with
    | some phase =>
      if phase = "New" then { status with status := backupStatusNew }
      else if phase = "InProgress" then { status with status := backupStatusInProgress }
      else if phase = "Completed" then { status with status := backupStatusCompleted }
      else if phase = "Failed" then { status with status := backupStatusFailed }
      else { status with status := backupStatusNew }
    | none => status
  match nestedString item ["status", "failureReason"] with
  | some message => { status with message := message }
  | none => status

/-- `getBackupListStatus` (src backup/common.go): classify every item and
bump exactly one of the four counters. -/
def getBackupListStatus (backups : List Json) : ResourceStatus :=
  backups.foldl
    (fun info backup =>
      let status := getBackupStatusFromSingle backup
      if status.status = backupStatusFailed then
        { info with failed := info.failed + 1 }
      else if status.status = backupStatusCompleted then
        { info with succeeded := info.succeeded + 1 }
      else if status.status = backupStatusInProgress then
        { info with running := info.running + 1 }
      else
        { info with pending := info.pending + 1 })
    {}

/-- `Backup` (src, part_002): the presentation view built by the
dynamic-client list path. -/
structure BackupView where
  objectMeta : ObjectMeta := {}
  typeMeta : TypeMeta := {}
  storageLocation : String := ""
  ttl : String := ""
  includedNamespaces : GoSlice String := .nilSlice
  excludedNamespaces : GoSlice String := .nilSlice
  backupStatus : BackupStatus := { status := "", message := "" }
  deriving DecidableEq

/-- `toBackup` (src, part_002): project one unstructured backup item onto
the presentation view. -/
def toBackup (item : Json) : BackupView :=
  let objectMeta : ObjectMeta := {}
  let objectMeta :=
    match nestedString item ["metadata", "name"] with
    | some n => { objectMeta with name := n }
    | none => objectMeta
  let objectMeta :=
    match nestedString item ["metadata", "namespace"] with
    | some ns => { objectMeta with nspace := ns }
    | none => objectMeta
  let objectMeta :=
    match nestedString item ["metadata", "uid"] with
    | some u => { objectMeta with uid := u }
    | none => objectMeta
  let objectMeta :=
    match nestedString item ["metadata", "creationTimestamp"] with
    | some s =>
      match parseRFC3339 s with
      | some t => { objectMeta with creationTimestamp := some t }
      | none => objectMeta
    | none => objectMeta
  let backup : BackupView :=
    { objectMeta := objectMeta, typeMeta := { kind := "backup" } }
  let backup :=
    match nestedString item ["spec", "storageLocation"] with
    | some sl => { backup with storageLocation := sl }
    | none => backup
  let backup :=
    match nestedString item ["spec", "ttl"] with
    | some t => { backup with ttl := t }
    | none => backup
  let backup :=
    match nestedStringSlice item ["spec", "includedNamespaces"] with
    | some ns => { backup with includedNamespaces := .mk ns }
    | none => backup
  let backup :=
    match nestedStringSlice item ["spec", "excludedNamespaces"] with
    | some ns => { backup with excludedNamespaces := .mk ns }
    | none => backup
  { backup with backupStatus := getBackupStatus item }

/-- `BackupList` (src, part_002): the dynamic-client list response — note
its elements live in a field named `Backups` (JSON tag `backups`), not
`items`. -/
structure BackupListDyn where
  listMeta : ListMeta
  cumulativeMetrics : GoSlice Unit
  status : ResourceStatus
  backups : GoSlice BackupView
  errors : GoSlice String

/-- `toBackupList` (src, part_002): run the dataselect pipeline over the
raw items, report `filteredTotal` as the list's total, convert the page to
views and aggregate the page's statuses. -/
def toBackupList (now : Nat) (backups : List Json) (dsQuery : DataSelectQuery) :
    BackupListDyn :=
  let backupList : BackupListDyn :=
    { backups := .mk []
      listMeta := { totalItems := backups.length }
      cumulativeMetrics := .nilSlice
      status := {}
      errors := .mk [] }
  let selected := genericDataSelectWithFilter (backupCellGetProperty now) backups dsQuery
  let backups := selected.1
  let filteredTotal := selected.2
  let backupList := { backupList with listMeta := { totalItems := filteredTotal } }
  let backupList :=
    backups.foldl (fun bl backup => { bl with backups := bl.backups.push (toBackup backup) })
      backupList
  { backupList with status := getBackupListStatus backups }

/-- Modelled from the spec: the generic custom-resource DataCell (the
customresourcedefinition package is not under src/) — projects a raw CR
object onto the well-known properties, with the spec's minimal value (zero
time) for a missing or unparseable creation timestamp. -/
def crObjectGetProperty (cell : Json) (name : String) : Option ComparableValue :=
  if name = nameProperty then
    some (.str ((nestedString cell ["metadata", "name"]).getD ""))
  else if name = namespaceProperty then
    some (.str ((nestedString cell ["metadata", "namespace"]).getD ""))
  else if name = creationTimestampProperty then
    match nestedString cell ["metadata", "creationTimestamp"] with
    | some s => some (.time ((parseRFC3339 s).getD 0))
    | none => some (.time 0)
  else none

/-- The object list returned by the CRD framework: the selected page of raw
objects together with the post-filter total. -/
structure CustomResourceObjectList where
  listMeta : ListMeta
  items : List Json

/-- Modelled from the spec:
`customresourcedefinition.GetCustomResourceObjectList` (source not under
src/) — wraps the raw CR objects as cells, runs the dataselect pipeline
with the caller-supplied query, and returns the page with the post-filter
count in its list metadata. -/
def getCustomResourceObjectList (objs : List Json) (q : DataSelectQuery) :
    CustomResourceObjectList :=
  let selected := genericDataSelectWithFilter crObjectGetProperty objs q
  { listMeta := { totalItems := selected.2 }, items := selected.1 }

/-- The `item.ObjectMeta` of a raw CR object as the CRD framework exposes
it (unmarshalled Kubernetes object metadata). -/
def crObjectMeta (item : Json) : ObjectMeta :=
  { name := (nestedString item ["metadata", "name"]).getD ""
    nspace := (nestedString item ["metadata", "namespace"]).getD "" }

/-- `Restore` (src restore/list.go). -/
structure Restore where
  objectMeta : ObjectMeta
  typeMeta : TypeMeta
  deriving DecidableEq

/-- `RestoreList` (src restore/list.go). -/
structure RestoreList where
  listMeta : ListMeta
  items : GoSlice Restore

/-- `GetRestoreList` (src restore/list.go), given the raw CR objects the
cluster returned: select via the CRD framework, convert the page
(`items := make([]Restore, 0, len)` then append), and report `len(items)`
as the total. -/
def getRestoreList (objs : List Json) (dsQuery : DataSelectQuery) : RestoreList :=
  let crdObjects := getCustomResourceObjectList objs dsQuery
  let items :=
    crdObjects.items.foldl
      (fun acc item =>
        acc.push
          { objectMeta := { name := (crObjectMeta item).name
                            nspace := (crObjectMeta item).nspace }
            typeMeta := { kind := "Restore" } })
      (GoSlice.mk [])
  { listMeta := { totalItems := items.length }, items := items }

/-- `Schedule` (src schedule/list.go). -/
structure Schedule where
  objectMeta : ObjectMeta
  typeMeta : TypeMeta
  deriving DecidableEq

/-- `ScheduleList` (src schedule/list.go). -/
structure ScheduleList where
  listMeta : ListMeta
  items : GoSlice Schedule

/-- `GetScheduleList` (src schedule/list.go): like the restore list, but
the converted slice starts as the nil slice (`var items []Schedule`). -/
def getScheduleList (objs : List Json) (dsQuery : DataSelectQuery) : ScheduleList :=
  let crdList := getCustomResourceObjectList objs dsQuery
  let items :=
    crdList.items.foldl
      (fun acc item =>
        acc.push
          { objectMeta := { name := (crObjectMeta item).name
                            nspace := (crObjectMeta item).nspace }
            typeMeta := { kind := "Schedule" } })
      GoSlice.nilSlice
  { listMeta := { totalItems := items.length }, items := items }

/-- `Backup` (src, part_004): the CRD-framework backup list item. -/
structure BackupCrd where
  objectMeta : ObjectMeta
  typeMeta : TypeMeta
  deriving DecidableEq

/-- `BackupList` (src, part_004). -/
structure BackupListCrd where
  listMeta : ListMeta
  items : GoSlice BackupCrd

/-- `GetBackupList` (src, part_004): the CRD-framework backup list —
`items := make([]Backup, 0, len)` then append, total = `len(items)`. -/
def getBackupListCrd (objs : List Json) (dsQuery : DataSelectQuery) : BackupListCrd :=
  let crdObjects := getCustomResourceObjectList objs dsQuery
  let items :=
    crdObjects.items.foldl
      (fun acc item =>
        acc.push
          { objectMeta := { name := (crObjectMeta item).name
                            nspace := (crObjectMeta item).nspace }
            typeMeta := { kind := "Backup" } })
      (GoSlice.mk [])
  { listMeta := { totalItems := items.length }, items := items }

/-- `encoding/json` on a Go slice: nil serializes as `null`, a non-nil
slice as an array. -/
def jsonOfGoSlice (f : α → Json) : GoSlice α → Json
  | .nilSlice => Json.null
  | .mk xs => Json.arr (xs.map f)

/-- Serialization of `types.ListMeta` (external type): its count field
carries the JSON tag `totalItems`. -/
def jsonOfListMeta (lm : ListMeta) : Json :=
  Json.obj [("totalItems", Json.num lm.totalItems)]

/-- Serialization of `types.ObjectMeta` (external type), restricted to the
fields of the embedding. -/
def jsonOfObjectMeta (om : ObjectMeta) : Json :=
  Json.obj [("name", Json.str om.name), ("namespace", Json.str om.nspace),
            ("uid", Json.str om.uid)]

/-- Serialization of `types.TypeMeta` (external type). -/
def jsonOfTypeMeta (tm : TypeMeta) : Json :=
  Json.obj [("kind", Json.str tm.kind)]

/-- Serialization of `common.ResourceStatus` (external type). -/
def jsonOfResourceStatus (rs : ResourceStatus) : Json :=
  Json.obj [("running", Json.num rs.running), ("pending", Json.num rs.pending),
            ("failed", Json.num rs.failed), ("succeeded", Json.num rs.succeeded)]

/-- Serialization of `Restore` with the src JSON tags `objectMeta`,
`typeMeta`. -/
def jsonOfRestore (r : Restore) : Json :=
  Json.obj [("objectMeta", jsonOfObjectMeta r.objectMeta),
            ("typeMeta", jsonOfTypeMeta r.typeMeta)]

/-- Serialization of `RestoreList` with the src JSON tags `listMeta`,
`items`. -/
def jsonOfRestoreList (rl : RestoreList) : Json :=
  Json.obj [("listMeta", jsonOfListMeta rl.listMeta),
            ("items", jsonOfGoSlice jsonOfRestore rl.items)]

/-- Serialization of `Schedule`. -/
def jsonOfSchedule (s : Schedule) : Json :=
  Json.obj [("objectMeta", jsonOfObjectMeta s.objectMeta),
            ("typeMeta", jsonOfTypeMeta s.typeMeta)]

/-- Serialization of `ScheduleList` with the src JSON tags `listMeta`,
`items`. -/
def jsonOfScheduleList (sl : ScheduleList) : Json :=
  Json.obj [("listMeta", jsonOfListMeta sl.listMeta),
            ("items", jsonOfGoSlice jsonOfSchedule sl.items)]

/-- Serialization of the CRD-framework `Backup` item. -/
def jsonOfBackupCrd (b : BackupCrd) : Json :=
  Json.obj [("objectMeta", jsonOfObjectMeta b.objectMeta),
            ("typeMeta", jsonOfTypeMeta b.typeMeta)]

/-- Serialization of the CRD-framework `BackupList` with the src JSON tags
`listMeta`, `items`. -/
def jsonOfBackupListCrd (bl : BackupListCrd) : Json :=
  Json.obj [("listMeta", jsonOfListMeta bl.listMeta),
            ("items", jsonOfGoSlice jsonOfBackupCrd bl.items)]

/-- Serialization of `BackupStatus` with the src tags. -/
def jsonOfBackupStatus (bs : BackupStatus) : Json :=
  Json.obj [("status", Json.str bs.status), ("message", Json.str bs.message)]

/-- Serialization of the dynamic-client `Backup` view with the src tags. -/
def jsonOfBackupView (b : BackupView) : Json :=
  Json.obj [("objectMeta", jsonOfObjectMeta b.objectMeta),
            ("typeMeta", jsonOfTypeMeta b.typeMeta),
            ("storageLocation", Json.str b.storageLocation),
            ("ttl", Json.str b.ttl),
            ("includedNamespaces", jsonOfGoSlice Json.str b.includedNamespaces),
            ("excludedNamespaces", jsonOfGoSlice Json.str b.excludedNamespaces),
            ("backupStatus", jsonOfBackupStatus b.backupStatus)]

/-- Serialization of the dynamic-client `BackupList` (src, part_002) with
the src JSON tags: `listMeta`, `cumulativeMetrics`, `status`, `backups`,
`errors` — there is no `items` tag. -/
def jsonOfBackupListDyn (bl : BackupListDyn) : Json :=
  Json.obj [("listMeta", jsonOfListMeta bl.listMeta),
            ("cumulativeMetrics", jsonOfGoSlice (fun _ => Json.null) bl.cumulativeMetrics),
            ("status", jsonOfResourceStatus bl.status),
            ("backups", jsonOfGoSlice jsonOfBackupView bl.backups),
            ("errors", jsonOfGoSlice Json.str bl.errors)]

/-- The field names of a serialized object, in order. -/
def topLevelKeys : Json → List String
  | Json.obj fs => fs.map Prod.fst
  | _ => []

/-- The resolved CRD schema as the call sites read it off the fetched
`CustomResourceDefinition` (external type): group, version, plural name and
scope.  Scope is the Go string-typed `ResourceScope`. -/
structure CRDSchema where
  group : String
  version : String
  plural : String
  scope : String
  deriving DecidableEq

/-- The Go constant `apiextensionsv1.NamespaceScoped`. -/
def namespaceScoped : String := "Namespaced"

/-- The Go constant `apiextensionsv1.ClusterScoped`. -/
def clusterScoped : String := "Cluster"

/-- A REST request under construction, as built by the client-go request
builder used through `crdv1.NewRESTClient`: the namespace recorded by
`Namespace`, the resource plural and the optional item name. -/
structure RESTRequest where
  verb : String
  nspace : Option String := none
  resource : Option String := none
  itemName : Option String := none
  deriving DecidableEq

/-- client-go `Request.NamespaceIfScoped`: record the namespace only when
`scoped` holds. -/
def namespaceIfScoped (r : RESTRequest) (ns : String) (isScoped : Bool) : RESTRequest :=
  if isScoped then { r with nspace := some ns } else r

/-- client-go `Request.Resource`. -/
def withResource (r : RESTRequest) (plural : String) : RESTRequest :=
  { r with resource := some plural }

/-- client-go `Request.Name`. -/
def withName (r : RESTRequest) (n : String) : RESTRequest :=
  { r with itemName := some n }

/-- The namespace path segments the request will emit: `namespaces/<ns>`
when a non-empty namespace was recorded, nothing otherwise. -/
def namespaceSegments (r : RESTRequest) : List String :=
  match r.nspace with
  | some ns => if ns = "" then [] else ["namespaces", ns]
  | none => []

/-- The REST path of a built request, following the Kubernetes convention
`apis/<group>/<version>/[namespaces/<ns>/]<plural>[/<name>]` the spec
records for custom resources. -/
def requestPath (schema : CRDSchema) (r : RESTRequest) : List String :=
  ["apis", schema.group, schema.version] ++ namespaceSegments r ++
  (match r.resource with
   | some p => [p]
   | none => []) ++
  (match r.itemName with
   | some n => [n]
   | none => [])

/-- `DeleteSchedule` (src, part_001), request construction:
`Delete().NamespaceIfScoped(namespace, scope == Namespaced).Resource(plural).Name(name)`. -/
def deleteScheduleRequest (crd : CRDSchema) (ns name : String) : RESTRequest :=
  withName (withResource (namespaceIfScoped { verb := "DELETE" } ns
    (crd.scope = namespaceScoped)) crd.plural) name

/-- `CreateBackup` (src backup/create.go), request construction:
`Post().NamespaceIfScoped(spec.Namespace, scope == Namespaced).Resource(plural).Body(json)`. -/
def createBackupRequest (crd : CRDSchema) (specNamespace : String) : RESTRequest :=
  withResource (namespaceIfScoped { verb := "POST" } specNamespace
    (crd.scope = namespaceScoped)) crd.plural

/-- `CreateRestore` (src restore/create.go), request construction. -/
def createRestoreRequest (crd : CRDSchema) (specNamespace : String) : RESTRequest :=
  withResource (namespaceIfScoped { verb := "POST" } specNamespace
    (crd.scope = namespaceScoped)) crd.plural

/-- `CreateSchedule` (src schedule/list.go), request construction. -/
def createScheduleRequest (crd : CRDSchema) (specNamespace : String) : RESTRequest :=
  withResource (namespaceIfScoped { verb := "POST" } specNamespace
    (crd.scope = namespaceScoped)) crd.plural

/-- `getRawBackupData` (src backup/create.go), request construction:
`Get().NamespaceIfScoped(namespace.ToRequestParam(), scope == Namespaced).Resource(plural).Name(name)`. -/
def getBackupRequest (crd : CRDSchema) (nsParam name : String) : RESTRequest :=
  withName (withResource (namespaceIfScoped { verb := "GET" } nsParam
    (crd.scope = namespaceScoped)) crd.plural) name

/-- `getRawRestoreData` (src, part_002), request construction. -/
def getRestoreRequest (crd : CRDSchema) (nsParam name : String) : RESTRequest :=
  withName (withResource (namespaceIfScoped { verb := "GET" } nsParam
    (crd.scope = namespaceScoped)) crd.plural) name

/-- `getRawScheduleData` (src, part_000), request construction. -/
def getScheduleRequest (crd : CRDSchema) (nsParam name : String) : RESTRequest :=
  withName (withResource (namespaceIfScoped { verb := "GET" } nsParam
    (crd.scope = namespaceScoped)) crd.plural) name

/-- Modelled from the spec: the Dynamic REST Adapter's List call (the list
operations reach REST through `GetCustomResourceObjectList`, whose source
is not under src/) — the namespace is recorded only for a Namespaced
scope. -/
def adapterListRequest (crd : CRDSchema) (ns : String) : RESTRequest :=
  withResource (namespaceIfScoped { verb := "GET" } ns
    (crd.scope = namespaceScoped)) crd.plural

/-- Go `json.Unmarshal` of raw bytes into a `map` value: `none` input
stands for syntactically invalid bytes; a valid document that is not a
top-level object also fails to unmarshal into a map. -/
def goUnmarshalMap : Option Json → Option (List (String × Json))
  | none => none
  | some (Json.obj fs) => some fs
  | some _ => none

/-- The possible outcomes of a create call: success, a transport failure
surfaced from `result.Error()`, a decode failure surfaced from
`json.Unmarshal`, or a runtime panic from an unchecked Go type
assertion. -/
inductive CreateOutcome (α : Type) where
  | ok (value : α)
  | transportErr (msg : String)
  | decodeErr (msg : String)
  | panicked
  deriving DecidableEq

/-- `CreateBackup` (src backup/create.go), outcome of the call given the
transport result and the response body: a transport failure is returned
first; an unmarshal failure returns a decode error; then the unchecked
assertions `createdBackup["metadata"].(map[string]interface)` and
`metadata["name"].(string)`, `metadata["namespace"].(string)` run — a
missing or non-object metadata field, or a non-string name or namespace,
panics. -/
def createBackupOutcome (transportFailure : Option String) (body : Option Json) :
    CreateOutcome BackupCrd :=
  match transportFailure with
  | some msg => .transportErr ("Failed to create backup: " ++ msg)
  | none =>
    match goUnmarshalMap body with
    | none => .decodeErr "Failed to parse backup response"
    | some createdBackup =>
      match jsonLookup createdBackup "metadata" with
      | some (Json.obj metadata) =>
        match jsonLookup metadata "name", jsonLookup metadata "namespace" with
        | some (Json.str n), some (Json.str ns) =>
          .ok { objectMeta := { name := n, nspace := ns }
                typeMeta := { kind := "Backup" } }
        | _, _ => .panicked
      | _ => .panicked

/-- `CreateRestore` (src restore/create.go), outcome of the call: same
shape as the backup create. -/
def createRestoreOutcome (transportFailure : Option String) (body : Option Json) :
    CreateOutcome Restore :=
  match transportFailure with
  | some msg => .transportErr ("Failed to create restore: " ++ msg)
  | none =>
    match goUnmarshalMap body with
    | none => .decodeErr "Failed to parse restore response"
    | some createdRestore =>
      match jsonLookup createdRestore "metadata" with
      | some (Json.obj metadata) =>
        match jsonLookup metadata "name", jsonLookup metadata "namespace" with
        | some (Json.str n), some (Json.str ns) =>
          .ok { objectMeta := { name := n, nspace := ns }
                typeMeta := { kind := "Restore" } }
        | _, _ => .panicked
      | _ => .panicked

/-- `CreateSchedule` (src schedule/list.go), outcome of the call: same
shape as the backup create. -/
def createScheduleOutcome (transportFailure : Option String) (body : Option Json) :
    CreateOutcome Schedule :=
  match transportFailure with
  | some msg => .transportErr ("Failed to create schedule: " ++ msg)
  | none =>
    match goUnmarshalMap body with
    | none => .decodeErr "Failed to parse schedule response"
    | some createdSchedule =>
      match jsonLookup createdSchedule "metadata" with
      | some (Json.obj metadata) =>
        match jsonLookup metadata "name", jsonLookup metadata "namespace" with
        | some (Json.str n), some (Json.str ns) =>
          .ok { objectMeta := { name := n, nspace := ns }
                typeMeta := { kind := "Schedule" } }
        | _, _ => .panicked
      | _ => .panicked

/-- `extractMetadata` (src backup/create.go, part_000, part_002): checked
extraction of name and namespace from the raw object's metadata field—
absent or ill-typed fields leave the zero values. -/
def extractMetadata (raw : List (String × Json)) : ObjectMeta :=
  let metadata : ObjectMeta := {}
  match jsonLookup raw "metadata" with
  | some (Json.obj meta) =>
    let metadata :=
      match jsonLookup meta "name" with
      | some (Json.str n) => { metadata with name := n }
      | _ => metadata
    match jsonLookup meta "namespace" with
    | some (Json.str ns) => { metadata with nspace := ns }
    | _ => metadata
  | _ => metadata

/-- `BackupDetail` (src backup/create.go): fields the parser can assign;
the never-assigned fields keep their Go zero values and are carried as
defaults. -/
structure BackupDetail where
  objectMeta : ObjectMeta := {}
  typeMeta : TypeMeta := {}
  status : String := ""
  phase : String := ""
  startTime : String := ""
  completionTime : String := ""
  expiration : String := ""
  storageLocation : String := ""
  volumeSnapshotLocation : String := ""
  totalItems : Int := 0
  itemsBackedUp : Int := 0
  progressTotalItems : Int := 0
  progressItemsBackedUp : Int := 0
  progressItemsFailed : Int := 0
  includedNamespaces : GoSlice String := .nilSlice
  deriving DecidableEq

/-- The `if status, ok := rawBackup["status"]` block of `parseBackupDetail`
(src backup/create.go), as a function of the looked-up status value:
phase is assigned to both Status and Phase, then timestamps and progress
counters, all with checked type assertions. -/
def parseBackupDetailStatusBlock (detail : BackupDetail) (v : Option Json) :
    BackupDetail :=
  match v with
  | some (Json.obj status) =>
    let detail :=
      match jsonLookup status "phase" with
      | some (Json.str phase) => { detail with phase := phase, status := phase }
      | _ => detail
    let detail :=
      match jsonLookup status "startTimestamp" with
      | some (Json.str t) => { detail with startTime := t }
      | _ => detail
    let detail :=
      match jsonLookup status "completionTimestamp" with
      | some (Json.str t) => { detail with completionTime := t }
      | _ => detail
    let detail :=
      match jsonLookup status "expiration" with
      | some (Json.str t) => { detail with expiration := t }
      | _ => detail
    match jsonLookup status "progress" with
    | some (Json.obj progress) =>
      let detail :=
        match jsonLookup progress "totalItems" with
        | some (Json.num n) => { detail with progressTotalItems := n, totalItems := n }
        | _ => detail
      match jsonLookup progress "itemsBackedUp" with
      | some (Json.num n) => { detail with progressItemsBackedUp := n, itemsBackedUp := n }
      | _ => detail
    | _ => detail
  | _ => detail

/-- The `if spec, ok := rawBackup["spec"]` block of `parseBackupDetail`. -/
def parseBackupDetailSpecBlock (detail : BackupDetail) (v : Option Json) :
    BackupDetail :=
  match v with
  | some (Json.obj spec) =>
    let detail :=
      match jsonLookup spec "storageLocation" with
      | some (Json.str sl) => { detail with storageLocation := sl }
      | _ => detail
    match jsonLookup spec "includedNamespaces" with
    | some (Json.arr includedNS) =>
      includedNS.foldl
        (fun d ns =>
          match ns with
          | Json.str s => { d with includedNamespaces := d.includedNamespaces.push s }
          | _ => d)
        detail
    | _ => detail
  | _ => detail

/-- `parseBackupDetail` (src backup/create.go): unmarshal the raw bytes,
extract metadata, then run the status block and the spec block. -/
def parseBackupDetail (rawData : Option Json) : Option BackupDetail :=
  match goUnmarshalMap rawData with
  | none => none
  | some rawBackup =>
    let detail : BackupDetail :=
      { objectMeta := extractMetadata rawBackup, typeMeta := { kind := "Backup" } }
    let detail := parseBackupDetailStatusBlock detail (jsonLookup rawBackup "status")
    let detail := parseBackupDetailSpecBlock detail (jsonLookup rawBackup "spec")
    some detail

/-- `RestoreDetail` (src, part_002): fields the parser can assign. -/
structure RestoreDetail where
  objectMeta : ObjectMeta := {}
  typeMeta : TypeMeta := {}
  status : String := ""
  phase : String := ""
  startTime : String := ""
  completionTime : String := ""
  backupName : String := ""
  totalItems : Int := 0
  itemsRestored : Int := 0
  progressTotalItems : Int := 0
  progressItemsRestored : Int := 0
  progressItemsFailed : Int := 0
  includedNamespaces : GoSlice String := .nilSlice
  deriving DecidableEq

/-- The `if status, ok := rawRestore["status"]` block of
`parseRestoreDetail` (src, part_002). -/
def parseRestoreDetailStatusBlock (detail : RestoreDetail) (v : Option Json) :
    RestoreDetail :=
  match v with
  | some (Json.obj status) =>
    let detail :=
      match jsonLookup status "phase" with
      | some (Json.str phase) => { detail with phase := phase, status := phase }
      | _ => detail
    let detail :=
      match jsonLookup status "startTimestamp" with
      | some (Json.str t) => { detail with startTime := t }
      | _ => detail
    let detail :=
      match jsonLookup status "completionTimestamp" with
      | some (Json.str t) => { detail with completionTime := t }
      | _ => detail
    match jsonLookup status "progress" with
    | some (Json.obj progress) =>
      let detail :=
        match jsonLookup progress "totalItems" with
        | some (Json.num n) => { detail with progressTotalItems := n, totalItems := n }
        | _ => detail
      match jsonLookup progress "itemsRestored" with
      | some (Json.num n) =>
        { detail with progressItemsRestored := n, itemsRestored := n }
      | _ => detail
    | _ => detail
  | _ => detail

/-- The `if spec, ok := rawRestore["spec"]` block of `parseRestoreDetail`. -/
def parseRestoreDetailSpecBlock (detail : RestoreDetail) (v : Option Json) :
    RestoreDetail :=
  match v with
  | some (Json.obj spec) =>
    let detail :=
      match jsonLookup spec "backupName" with
      | some (Json.str bn) => { detail with backupName := bn }
      | _ => detail
    match jsonLookup spec "includedNamespaces" with
    | some (Json.arr includedNS) =>
      includedNS.foldl
        (fun d ns =>
          match ns with
          | Json.str s => { d with includedNamespaces := d.includedNamespaces.push s }
          | _ => d)
        detail
    | _ => detail
  | _ => detail

/-- `parseRestoreDetail` (src, part_002): same structure as the backup
detail parser, with restore-specific fields. -/
def parseRestoreDetail (rawData : Option Json) : Option RestoreDetail :=
  match goUnmarshalMap rawData with
  | none => none
  | some rawRestore =>
    let detail : RestoreDetail :=
      { objectMeta := extractMetadata rawRestore, typeMeta := { kind := "Restore" } }
    let detail := parseRestoreDetailStatusBlock detail (jsonLookup rawRestore "status")
    let detail := parseRestoreDetailSpecBlock detail (jsonLookup rawRestore "spec")
    some detail

/-- `ScheduleDetail` (src, part_000): fields the parser can assign. -/
structure ScheduleDetail where
  objectMeta : ObjectMeta := {}
  typeMeta : TypeMeta := {}
  schedule : String := ""
  lastBackupTime : String := ""
  phase : String := ""
  status : String := ""
  validationError : String := ""
  deriving DecidableEq

/-- The `if spec, ok := rawSchedule["spec"]` block of
`parseScheduleDetail` (src, part_000). -/
def parseScheduleDetailSpecBlock (detail : ScheduleDetail) (v : Option Json) :
    ScheduleDetail :=
  match v with
  | some (Json.obj spec) =>
    match jsonLookup spec "schedule" with
    | some (Json.str s) => { detail with schedule := s }
    | _ => detail
  | _ => detail

/-- The `if status, ok := rawSchedule["status"]` block of
`parseScheduleDetail`. -/
def parseScheduleDetailStatusBlock (detail : ScheduleDetail) (v : Option Json) :
    ScheduleDetail :=
  match v with
  | some (Json.obj status) =>
    let detail :=
      match jsonLookup status "phase" with
      | some (Json.str phase) => { detail with phase := phase, status := phase }
      | _ => detail
    let detail :=
      match jsonLookup status "lastBackupTime" with
      | some (Json.str t) => { detail with lastBackupTime := t }
      | _ => detail
    match jsonLookup status "validationErrors" with
    | some (Json.arr validationErrors) =>
      if validationErrors.length > 0 then
        match validationErrors.headD Json.null with
        | Json.str ve => { detail with validationError := ve }
        | _ => detail
      else detail
    | _ => detail
  | _ => detail

/-- `parseScheduleDetail` (src, part_000): unmarshal, extract metadata,
then run the spec block and the status block. -/
def parseScheduleDetail (rawData : Option Json) : Option ScheduleDetail :=
  match goUnmarshalMap rawData with
  | none => none
  | some rawSchedule =>
    let detail : ScheduleDetail :=
      { objectMeta := extractMetadata rawSchedule, typeMeta := { kind := "Schedule" } }
    let detail := parseScheduleDetailSpecBlock detail (jsonLookup rawSchedule "spec")
    let detail := parseScheduleDetailStatusBlock detail (jsonLookup rawSchedule "status")
    some detail

/-- The status component of the classification, isolated: phase switch with
default `New`. -/
def classifyPhase : Option String → String
  | none => "New"
  | some phase =>
    if phase = "New" then "New"
    else if phase = "InProgress" then "InProgress"
    else if phase = "Completed" then "Completed"
    else if phase = "Failed" then "Failed"
    else "New"

theorem getBackupStatusFromSingle_status (item : Json) :
    (getBackupStatusFromSingle item).status =
      classifyPhase (nestedString item ["status", "phase"]) := by
  unfold getBackupStatusFromSingle classifyPhase
  cases nestedString item ["status", "phase"] with
  | none =>
    cases nestedString item ["status", "failureReason"] <;> rfl
  | some phase =>
    cases nestedString item ["status", "failureReason"] <;>
      simp only [] <;> split_ifs <;> rfl

/-- C5: classification always lands in the four-element enumeration and
defaults to New on an absent or unrecognized phase; `getBackupStatus`
(part_002) agrees with `getBackupStatusFromSingle` (common.go). -/
theorem backup_classification_enumerated (item : Json) :
    getBackupStatus item = getBackupStatusFromSingle item ∧
    ((getBackupStatusFromSingle item).status = backupStatusNew ∨
     (getBackupStatusFromSingle item).status = backupStatusInProgress ∨
     (getBackupStatusFromSingle item).status = backupStatusCompleted ∨
     (getBackupStatusFromSingle item).status = backupStatusFailed) ∧
    (nestedString item ["status", "phase"] = none →
      (getBackupStatusFromSingle item).status = backupStatusNew) ∧
    (∀ phase, nestedString item ["status", "phase"] = some phase →
      phase ∉ ([backupStatusNew, backupStatusInProgress,
                backupStatusCompleted, backupStatusFailed] : List String) →
      (getBackupStatusFromSingle item).status = backupStatusNew) := by
  refine ⟨rfl, ?_, ?_, ?_⟩
  · rw [getBackupStatusFromSingle_status]
    unfold classifyPhase
    cases nestedString item ["status", "phase"] with
    | none => left; rfl
    | some phase =>
      simp only [backupStatusNew, backupStatusInProgress, backupStatusCompleted,
        backupStatusFailed]
      split_ifs <;> simp
  · intro h
    rw [getBackupStatusFromSingle_status, h]
    rfl
  · intro phase h hmem
    rw [getBackupStatusFromSingle_status, h]
    unfold classifyPhase
    simp only [backupStatusNew, backupStatusInProgress, backupStatusCompleted,
      backupStatusFailed, List.mem_cons, List.mem_singleton] at hmem ⊢
    split_ifs with h1 h2 h3 h4 <;> simp_all

/-- C5 witness: a backup whose phase is the unrecognized string
"PartiallyFailed" classifies as New, and an empty object (absent phase)
classifies as New. -/
theorem backup_classification_enumerated_witness :
    (getBackupStatusFromSingle
      (Json.obj [("status", Json.obj [("phase", Json.str "PartiallyFailed")])])).status
        = backupStatusNew ∧
    (getBackupStatusFromSingle (Json.obj [])).status = backupStatusNew :=
  ⟨(backup_classification_enumerated _).2.2.2 "PartiallyFailed" (by decide) (by decide),
   (backup_classification_enumerated _).2.2.1 (by decide)⟩

/-- The sum of the four aggregate counters. -/
def ResourceStatus.total (rs : ResourceStatus) : Nat :=
  rs.running + rs.pending + rs.failed + rs.succeeded

theorem getBackupListStatus_foldl_total (backups : List Json) (info : ResourceStatus) :
    (backups.foldl
      (fun info backup =>
        if (getBackupStatusFromSingle backup).status = backupStatusFailed then
          { info with failed := info.failed + 1 }
        else if (getBackupStatusFromSingle backup).status = backupStatusCompleted then
          { info with succeeded := info.succeeded + 1 }
        else if (getBackupStatusFromSingle backup).status = backupStatusInProgress then
          { info with running := info.running + 1 }
        else
          { info with pending := info.pending + 1 })
      info).total = info.total + backups.length := by
  induction backups generalizing info with
  | nil => simp
  | cons b t ih =>
    simp only [List.foldl_cons]
    rw [ih]
    split_ifs <;> simp [ResourceStatus.total] <;> omega

/-- C6: the aggregate counters of `getBackupListStatus` sum to the number
of items — every item bumps exactly one of the four counters. -/
theorem getBackupListStatus_counters_sum (backups : List Json) :
    (getBackupListStatus backups).running + (getBackupListStatus backups).pending +
    (getBackupListStatus backups).succeeded + (getBackupListStatus backups).failed
      = backups.length := by
  have h := getBackupListStatus_foldl_total backups {}
  unfold ResourceStatus.total at h
  simp only [List.length_nil, Nat.add_zero] at h
  simp only [getBackupListStatus]
  omega

/-- C3 counterexample: on an item exposing neither property, at a moment
when the clock reads 5, `BackupCell.GetProperty` returns the string
"Unknown" (not the empty string) for Status and the current time (not the
zero time) for CreationTimestamp. -/
theorem backupCellGetProperty_defaults_counterexample :
    backupCellGetProperty 5 (Json.obj []) statusProperty
      = some (ComparableValue.str "Unknown") ∧
    backupCellGetProperty 5 (Json.obj []) statusProperty
      ≠ some (ComparableValue.str "") ∧
    backupCellGetProperty 5 (Json.obj []) creationTimestampProperty
      = some (ComparableValue.time 5) ∧
    backupCellGetProperty 5 (Json.obj []) creationTimestampProperty
      ≠ some (ComparableValue.time 0) := by
  refine ⟨rfl, ?_, rfl, ?_⟩ <;> decide

/-- C3 amended: the lookup never errors and yields defined defaults, but
they are the empty string for a missing name or namespace, the string
"Unknown" for a missing status.phase, the current wall-clock time (not the
zero time) for a missing or unparseable creationTimestamp, and Go `nil`
for an unknown property name. -/
theorem backupCellGetProperty_defaults (now : Nat) (item : Json) :
    (nestedString item ["metadata", "name"] = none →
      backupCellGetProperty now item nameProperty = some (ComparableValue.str "")) ∧
    (nestedString item ["metadata", "namespace"] = none →
      backupCellGetProperty now item namespaceProperty = some (ComparableValue.str "")) ∧
    (nestedString item ["status", "phase"] = none →
      backupCellGetProperty now item statusProperty
        = some (ComparableValue.str "Unknown")) ∧
    (nestedString item ["metadata", "creationTimestamp"] = none →
      backupCellGetProperty now item creationTimestampProperty
        = some (ComparableValue.time now)) ∧
    (∀ s, nestedString item ["metadata", "creationTimestamp"] = some s →
      parseRFC3339 s = none →
      backupCellGetProperty now item creationTimestampProperty
        = some (ComparableValue.time now)) ∧
    (∀ p, p ∈ [nameProperty, creationTimestampProperty, namespaceProperty,
               statusProperty] →
      (backupCellGetProperty now item p).isSome) := by
  refine ⟨?_, ?_, ?_, ?_, ?_, ?_⟩
  · intro h; simp [backupCellGetProperty, nameProperty, creationTimestampProperty,
      namespaceProperty, statusProperty, h]
  · intro h; simp [backupCellGetProperty, nameProperty, creationTimestampProperty,
      namespaceProperty, statusProperty, h]
  · intro h; simp [backupCellGetProperty, nameProperty, creationTimestampProperty,
      namespaceProperty, statusProperty, h]
  · intro h; simp [backupCellGetProperty, nameProperty, creationTimestampProperty,
      namespaceProperty, statusProperty, h]
  · intro s hs hp; simp [backupCellGetProperty, nameProperty,
      creationTimestampProperty, namespaceProperty, statusProperty, hs, hp]
  · intro p hp
    simp only [List.mem_cons, List.not_mem_nil, or_false] at hp
    rcases hp with h | h | h | h <;> subst h
    · simp only [backupCellGetProperty, nameProperty, creationTimestampProperty,
        namespaceProperty, statusProperty, if_true]
      cases nestedString item ["metadata", "name"] <;> simp
    · simp only [backupCellGetProperty, nameProperty, creationTimestampProperty,
        namespaceProperty, statusProperty, if_true]
      cases nestedString item ["metadata", "creationTimestamp"] with
      | none => simp
      | some s => cases hps : parseRFC3339 s <;> simp [hps]
    · simp only [backupCellGetProperty, nameProperty, creationTimestampProperty,
        namespaceProperty, statusProperty, if_true]
      cases nestedString item ["metadata", "namespace"] <;> simp
    · simp only [backupCellGetProperty, nameProperty, creationTimestampProperty,
        namespaceProperty, statusProperty, if_true]
      cases nestedString item ["status", "phase"] <;> simp

/-- C3 amended witness: the defaults at the empty object with clock 7. -/
theorem backupCellGetProperty_defaults_witness :
    backupCellGetProperty 7 (Json.obj []) statusProperty
      = some (ComparableValue.str "Unknown") ∧
    backupCellGetProperty 7 (Json.obj []) creationTimestampProperty
      = some (ComparableValue.time 7) :=
  ⟨(backupCellGetProperty_defaults 7 (Json.obj [])).2.2.1 (by decide),
   (backupCellGetProperty_defaults 7 (Json.obj [])).2.2.2.1 (by decide)⟩

/-- An item carries a creation timestamp the cell can parse. -/
def hasParseableCreationTimestamp (item : Json) : Bool :=
  match nestedString item ["metadata", "creationTimestamp"] with
  | some s => (parseRFC3339 s).isSome
  | none => false

/-- C4 counterexample: on an item with no creation timestamp, two
invocations of `BackupCell.GetProperty` at clock readings 1 and 2 return
different ComparableValues. -/
theorem backupCellGetProperty_not_pure :
    backupCellGetProperty 1 (Json.obj []) creationTimestampProperty
      ≠ backupCellGetProperty 2 (Json.obj []) creationTimestampProperty := by
  decide

theorem backupCellGetProperty_clock_congr (n₁ n₂ : Nat) (item : Json) (p : String)
    (h : p ≠ creationTimestampProperty ∨ hasParseableCreationTimestamp item = true) :
    backupCellGetProperty n₁ item p = backupCellGetProperty n₂ item p := by
  by_cases hp : p = creationTimestampProperty
  · subst hp
    rcases h with h | h
    · exact absurd rfl h
    · unfold hasParseableCreationTimestamp at h
      cases hcs : nestedString item ["metadata", "creationTimestamp"] with
      | none => rw [hcs] at h; simp at h
      | some s =>
        rw [hcs] at h
        cases hps : parseRFC3339 s with
        | none => simp [hps] at h
        | some t => simp [backupCellGetProperty, hcs, hps]
  · simp only [backupCellGetProperty]
    split_ifs with h1 h2 <;> first | rfl | exact absurd h2 hp

theorem passesFilter_congr (g₁ g₂ : α → String → Option ComparableValue)
    (fb : List (String × String)) (cell : α)
    (h : ∀ p, g₁ cell p = g₂ cell p) :
    passesFilter g₁ fb cell = passesFilter g₂ fb cell := by
  unfold passesFilter
  have : (fun pv : String × String =>
      match g₁ cell pv.1 with
      | some cv => cv.containsValue pv.2
      | none => false) =
    (fun pv : String × String =>
      match g₂ cell pv.1 with
      | some cv => cv.containsValue pv.2
      | none => false) := funext fun pv => by rw [h pv.1]
  rw [this]

theorem compareByKeys_congr (g₁ g₂ : α → String → Option ComparableValue)
    (keys : List (String × Bool)) (a b : α)
    (ha : ∀ p, g₁ a p = g₂ a p) (hb : ∀ p, g₁ b p = g₂ b p) :
    compareByKeys g₁ keys a b = compareByKeys g₂ keys a b := by
  induction keys with
  | nil => rfl
  | cons k rest ih =>
    obtain ⟨p, asc⟩ := k
    simp only [compareByKeys, ha p, hb p]
    rw [ih]

theorem insertSorted_congr (lt₁ lt₂ : α → α → Bool) (x : α) (l : List α)
    (h : ∀ a ∈ x :: l, ∀ b ∈ x :: l, lt₁ a b = lt₂ a b) :
    insertSorted lt₁ x l = insertSorted lt₂ x l := by
  induction l with
  | nil => rfl
  | cons y ys ih =>
    simp only [insertSorted]
    rw [h y (by simp) x (by simp)]
    split_ifs with hyx
    · rw [ih (fun a ha b hb =>
        h a (by simp only [List.mem_cons] at ha ⊢; tauto)
          b (by simp only [List.mem_cons] at hb ⊢; tauto))]
    · rfl

theorem mem_insertSorted (lt : α → α → Bool) (x y : α) (l : List α) :
    y ∈ insertSorted lt x l ↔ y = x ∨ y ∈ l := by
  induction l with
  | nil => simp [insertSorted]
  | cons z zs ih =>
    simp only [insertSorted]
    split_ifs with hzx <;> simp only [List.mem_cons, ih] <;> tauto

theorem mem_insertionSort (lt : α → α → Bool) (l : List α) (y : α) :
    y ∈ insertionSort lt l ↔ y ∈ l := by
  induction l with
  | nil => simp [insertionSort]
  | cons x xs ih =>
    simp only [insertionSort, mem_insertSorted, List.mem_cons, ih]

theorem insertionSort_congr (lt₁ lt₂ : α → α → Bool) (l : List α)
    (h : ∀ a ∈ l, ∀ b ∈ l, lt₁ a b = lt₂ a b) :
    insertionSort lt₁ l = insertionSort lt₂ l := by
  induction l with
  | nil => rfl
  | cons x xs ih =>
    simp only [insertionSort]
    rw [ih (fun a ha b hb => h a (by simp [ha]) b (by simp [hb]))]
    apply insertSorted_congr
    intro a ha b hb
    simp only [List.mem_cons, mem_insertionSort] at ha hb
    exact h a (by simp only [List.mem_cons]; tauto)
      b (by simp only [List.mem_cons]; tauto)

theorem genericDataSelectWithFilter_congr
    (g₁ g₂ : α → String → Option ComparableValue) (items : List α)
    (q : DataSelectQuery) (h : ∀ item ∈ items, ∀ p, g₁ item p = g₂ item p) :
    genericDataSelectWithFilter g₁ items q = genericDataSelectWithFilter g₂ items q := by
  have hf : items.filter (passesFilter g₁ q.filterBy)
      = items.filter (passesFilter g₂ q.filterBy) :=
    List.filter_congr (fun x hx => passesFilter_congr g₁ g₂ q.filterBy x (h x hx))
  have hs : insertionSort
      (fun a b => compareByKeys g₁ q.sortBy a b = Ordering.lt)
      (items.filter (passesFilter g₂ q.filterBy)) = insertionSort
      (fun a b => compareByKeys g₂ q.sortBy a b = Ordering.lt)
      (items.filter (passesFilter g₂ q.filterBy)) := by
    apply insertionSort_congr
    intro a ha b hb
    have hma := (List.mem_filter.mp ha).1
    have hmb := (List.mem_filter.mp hb).1
    rw [compareByKeys_congr g₁ g₂ q.sortBy a b (h a hma) (h b hmb)]
  unfold genericDataSelectWithFilter
  dsimp only
  rw [hf, hs]

/-- C4 amended: `BackupCell.GetProperty` is deterministic given the clock;
two invocations at different clock readings agree for every property other
than CreationTimestamp, and for CreationTimestamp whenever the item carries
a parseable creation timestamp — and the whole Select pipeline is then
reproducible over such items; but on an item with no parseable creation
timestamp the value is the invocation's wall-clock time, so two invocations
need not be equal. -/
theorem backupCell_pipeline_deterministic :
    (∀ n₁ n₂ item p,
      (p ≠ creationTimestampProperty ∨ hasParseableCreationTimestamp item = true) →
      backupCellGetProperty n₁ item p = backupCellGetProperty n₂ item p) ∧
    (∀ n₁ n₂ q items,
      (∀ item ∈ items, hasParseableCreationTimestamp item = true) →
      genericDataSelectWithFilter (backupCellGetProperty n₁) items q
        = genericDataSelectWithFilter (backupCellGetProperty n₂) items q) := by
  constructor
  · exact fun n₁ n₂ item p h => backupCellGetProperty_clock_congr n₁ n₂ item p h
  · intro n₁ n₂ q items h
    exact genericDataSelectWithFilter_congr _ _ items q
      (fun item hitem p =>
        backupCellGetProperty_clock_congr n₁ n₂ item p (Or.inr (h item hitem)))

/-- C4 amended witness: on an item with a parseable creation timestamp the
property lookup and a full Select run agree across clock readings 1 and 2. -/
theorem backupCell_pipeline_deterministic_witness :
    backupCellGetProperty 1
        (Json.obj [("metadata",
          Json.obj [("creationTimestamp", Json.str "2024-01-02T03:04:05Z")])])
        creationTimestampProperty
      = backupCellGetProperty 2
        (Json.obj [("metadata",
          Json.obj [("creationTimestamp", Json.str "2024-01-02T03:04:05Z")])])
        creationTimestampProperty ∧
    genericDataSelectWithFilter (backupCellGetProperty 1)
        [Json.obj [("metadata",
          Json.obj [("creationTimestamp", Json.str "2024-01-02T03:04:05Z")])]]
        ⟨[], [(creationTimestampProperty, true)], ⟨10, 1⟩⟩
      = genericDataSelectWithFilter (backupCellGetProperty 2)
        [Json.obj [("metadata",
          Json.obj [("creationTimestamp", Json.str "2024-01-02T03:04:05Z")])]]
        ⟨[], [(creationTimestampProperty, true)], ⟨10, 1⟩⟩ :=
  ⟨backupCell_pipeline_deterministic.1 1 2
      (Json.obj [("metadata",
        Json.obj [("creationTimestamp", Json.str "2024-01-02T03:04:05Z")])])
      creationTimestampProperty (Or.inr (by decide)),
   backupCell_pipeline_deterministic.2 1 2
      ⟨[], [(creationTimestampProperty, true)], ⟨10, 1⟩⟩
      [Json.obj [("metadata",
        Json.obj [("creationTimestamp", Json.str "2024-01-02T03:04:05Z")])]]
      (by intro item hitem
          simp only [List.mem_singleton] at hitem
          subst hitem
          decide)⟩

theorem GoSlice.push_length (s : GoSlice α) (x : α) :
    (s.push x).length = s.length + 1 := by
  cases s <;> simp [GoSlice.push, GoSlice.length]

theorem foldl_push_length (g : β → α) (l : List β) (init : GoSlice α) :
    (l.foldl (fun acc x => acc.push (g x)) init).length = init.length + l.length := by
  induction l generalizing init with
  | nil => simp
  | cons x xs ih =>
    simp only [List.foldl_cons, ih, GoSlice.push_length, List.length_cons]
    omega

theorem toBackupList_foldl_listMeta (l : List Json) (bl : BackupListDyn) :
    (l.foldl (fun bl backup => { bl with backups := bl.backups.push (toBackup backup) })
      bl).listMeta = bl.listMeta := by
  induction l generalizing bl with
  | nil => rfl
  | cons b t ih => simp only [List.foldl_cons, ih]

/-- C1 amended: the dynamic-client `toBackupList` reports the post-filter
count as `totalItems` for every input and query; `GetRestoreList`,
`GetScheduleList` and the CRD-framework `GetBackupList` instead report the
length of the page returned by the CRD framework, which equals the
post-filter count only when pagination does not truncate. -/
theorem list_totalItems_semantics :
    (∀ now backups q, (toBackupList now backups q).listMeta.totalItems
        = (backups.filter (passesFilter (backupCellGetProperty now) q.filterBy)).length) ∧
    (∀ objs q, (getRestoreList objs q).listMeta.totalItems
        = (getCustomResourceObjectList objs q).items.length) ∧
    (∀ objs q, (getScheduleList objs q).listMeta.totalItems
        = (getCustomResourceObjectList objs q).items.length) ∧
    (∀ objs q, (getBackupListCrd objs q).listMeta.totalItems
        = (getCustomResourceObjectList objs q).items.length) := by
  refine ⟨?_, ?_, ?_, ?_⟩
  · intro now backups q
    unfold toBackupList genericDataSelectWithFilter
    dsimp only
    rw [toBackupList_foldl_listMeta]
  · intro objs q
    unfold getRestoreList
    dsimp only
    rw [foldl_push_length]
    simp [GoSlice.length]
  · intro objs q
    unfold getScheduleList
    dsimp only
    rw [foldl_push_length]
    simp [GoSlice.length]
  · intro objs q
    unfold getBackupListCrd
    dsimp only
    rw [foldl_push_length]
    simp [GoSlice.length]

/-- C1 counterexample: two objects, no filter, one item per page —
`GetRestoreList` reports totalItems = 1, the length of the returned page,
while the count of items passing the filter step alone is 2. -/
theorem getRestoreList_totalItems_counterexample :
    (getRestoreList
        [Json.obj [("metadata", Json.obj [("name", Json.str "a")])],
         Json.obj [("metadata", Json.obj [("name", Json.str "b")])]]
        ⟨[], [], ⟨1, 1⟩⟩).listMeta.totalItems = 1 ∧
    ([Json.obj [("metadata", Json.obj [("name", Json.str "a")])],
      Json.obj [("metadata", Json.obj [("name", Json.str "b")])]].filter
        (passesFilter crObjectGetProperty [])).length = 2 ∧
    (1 : Nat) ≠ 2 := by
  refine ⟨by decide, by decide, by decide⟩

/-- C2: for every operation that builds a REST call, when the resolved
schema's scope is not Namespaced (in particular when it is Cluster) the
built request records no namespace and the constructed path carries no
namespace segment, regardless of the caller-supplied namespace. -/
theorem rest_scope_invariant (crd : CRDSchema) (ns nm : String)
    (h : crd.scope ≠ namespaceScoped) :
    namespaceSegments (deleteScheduleRequest crd ns nm) = [] ∧
    requestPath crd (deleteScheduleRequest crd ns nm)
      = ["apis", crd.group, crd.version, crd.plural, nm] ∧
    namespaceSegments (createBackupRequest crd ns) = [] ∧
    requestPath crd (createBackupRequest crd ns)
      = ["apis", crd.group, crd.version, crd.plural] ∧
    namespaceSegments (createRestoreRequest crd ns) = [] ∧
    requestPath crd (createRestoreRequest crd ns)
      = ["apis", crd.group, crd.version, crd.plural] ∧
    namespaceSegments (createScheduleRequest crd ns) = [] ∧
    requestPath crd (createScheduleRequest crd ns)
      = ["apis", crd.group, crd.version, crd.plural] ∧
    namespaceSegments (getBackupRequest crd ns nm) = [] ∧
    requestPath crd (getBackupRequest crd ns nm)
      = ["apis", crd.group, crd.version, crd.plural, nm] ∧
    namespaceSegments (getRestoreRequest crd ns nm) = [] ∧
    requestPath crd (getRestoreRequest crd ns nm)
      = ["apis", crd.group, crd.version, crd.plural, nm] ∧
    namespaceSegments (getScheduleRequest crd ns nm) = [] ∧
    requestPath crd (getScheduleRequest crd ns nm)
      = ["apis", crd.group, crd.version, crd.plural, nm] ∧
    namespaceSegments (adapterListRequest crd ns) = [] ∧
    requestPath crd (adapterListRequest crd ns)
      = ["apis", crd.group, crd.version, crd.plural] := by
  have hfalse : (crd.scope = namespaceScoped) = False := by
    simp only [eq_iff_iff, iff_false]
    exact h
  refine ⟨?_, ?_, ?_, ?_, ?_, ?_, ?_, ?_, ?_, ?_, ?_, ?_, ?_, ?_, ?_, ?_⟩ <;>
    simp [deleteScheduleRequest, createBackupRequest, createRestoreRequest,
      createScheduleRequest, getBackupRequest, getRestoreRequest,
      getScheduleRequest, adapterListRequest, namespaceIfScoped, withResource,
      withName, namespaceSegments, requestPath, hfalse]

/-- C2 witness: the cluster-scoped CRD `widgets.example.io` with a
caller-supplied namespace "ns1" still builds the path
apis/example.io/v1/widgets/w. -/
theorem rest_scope_invariant_witness :
    requestPath ⟨"example.io", "v1", "widgets", "Cluster"⟩
        (getBackupRequest ⟨"example.io", "v1", "widgets", "Cluster"⟩ "ns1" "w")
      = ["apis", "example.io", "v1", "widgets", "w"] :=
  (rest_scope_invariant ⟨"example.io", "v1", "widgets", "Cluster"⟩ "ns1" "w"
    (by decide)).2.2.2.2.2.2.2.2.2.1

/-- C7 counterexample: no list result exposes a top-level `totalItems`
field — the count sits inside `listMeta` — and the dynamic-client backup
list exposes its elements under `backups`, not `items`. -/
theorem list_response_shape_counterexample :
    topLevelKeys (jsonOfRestoreList (getRestoreList [] ⟨[], [], ⟨0, 1⟩⟩))
      = ["listMeta", "items"] ∧
    "totalItems" ∉ topLevelKeys (jsonOfRestoreList (getRestoreList [] ⟨[], [], ⟨0, 1⟩⟩)) ∧
    topLevelKeys (jsonOfBackupListDyn (toBackupList 0 [] ⟨[], [], ⟨0, 1⟩⟩))
      = ["listMeta", "cumulativeMetrics", "status", "backups", "errors"] ∧
    "items" ∉ topLevelKeys (jsonOfBackupListDyn (toBackupList 0 [] ⟨[], [], ⟨0, 1⟩⟩)) ∧
    "totalItems" ∉ topLevelKeys (jsonOfBackupListDyn (toBackupList 0 [] ⟨[], [], ⟨0, 1⟩⟩)) := by
  refine ⟨by decide, by decide, by decide, by decide, by decide⟩

/-- C7 amended: every CRD-framework list result (restore, schedule, CRD
backup) serializes with exactly the top-level fields `listMeta` and
`items`, the count reachable as `listMeta.totalItems`; the dynamic-client
backup list serializes its count the same way but carries its elements
under the top-level field `backups` (and `cumulativeMetrics`, `status`,
`errors`), with no top-level `totalItems` on any list result. -/
theorem list_response_shape (objs : List Json) (q : DataSelectQuery) (now : Nat) :
    topLevelKeys (jsonOfRestoreList (getRestoreList objs q)) = ["listMeta", "items"] ∧
    nestedField (jsonOfRestoreList (getRestoreList objs q)) ["listMeta", "totalItems"]
      = some (Json.num (getRestoreList objs q).listMeta.totalItems) ∧
    topLevelKeys (jsonOfScheduleList (getScheduleList objs q)) = ["listMeta", "items"] ∧
    nestedField (jsonOfScheduleList (getScheduleList objs q)) ["listMeta", "totalItems"]
      = some (Json.num (getScheduleList objs q).listMeta.totalItems) ∧
    topLevelKeys (jsonOfBackupListCrd (getBackupListCrd objs q)) = ["listMeta", "items"] ∧
    nestedField (jsonOfBackupListCrd (getBackupListCrd objs q)) ["listMeta", "totalItems"]
      = some (Json.num (getBackupListCrd objs q).listMeta.totalItems) ∧
    topLevelKeys (jsonOfBackupListDyn (toBackupList now objs q))
      = ["listMeta", "cumulativeMetrics", "status", "backups", "errors"] ∧
    nestedField (jsonOfBackupListDyn (toBackupList now objs q)) ["listMeta", "totalItems"]
      = some (Json.num (toBackupList now objs q).listMeta.totalItems) := by
  refine ⟨rfl, ?_, rfl, ?_, rfl, ?_, rfl, ?_⟩ <;>
    simp [jsonOfRestoreList, jsonOfScheduleList, jsonOfBackupListCrd,
      jsonOfBackupListDyn, jsonOfListMeta, nestedField, jsonLookup]

/-- C8: evaluation of the create operations at the failing inputs.  A
malformed body is surfaced as a decode error distinct from a transport
error, but a well-formed body whose top-level shape is unexpected (no
object `metadata` field) makes the unchecked Go type assertion panic
instead of returning an error value. -/
theorem create_response_shape_panics :
    createBackupOutcome none (some (Json.obj [("kind", Json.str "Backup")]))
      = CreateOutcome.panicked ∧
    createScheduleOutcome none (some (Json.obj [("kind", Json.str "Schedule")]))
      = CreateOutcome.panicked ∧
    createRestoreOutcome none (some (Json.obj [("metadata", Json.str "oops")]))
      = CreateOutcome.panicked ∧
    createBackupOutcome none
        (some (Json.obj [("metadata", Json.obj [("name", Json.num 3)])]))
      = CreateOutcome.panicked ∧
    createBackupOutcome none none
      = CreateOutcome.decodeErr "Failed to parse backup response" ∧
    createBackupOutcome (some "connection refused") none
      = CreateOutcome.transportErr "Failed to create backup: connection refused" := by
  refine ⟨rfl, rfl, rfl, rfl, rfl, rfl⟩

/-- C10: on an empty CRD object list, `GetRestoreList` and the CRD
`GetBackupList` produce a non-nil empty Items slice (JSON `[]`), while
`GetScheduleList` leaves Items as the nil slice (JSON `null`). -/
theorem empty_list_items_serialization (q : DataSelectQuery) :
    (getRestoreList [] q).items = GoSlice.mk [] ∧
    (getBackupListCrd [] q).items = GoSlice.mk [] ∧
    (getScheduleList [] q).items = GoSlice.nilSlice ∧
    jsonOfGoSlice jsonOfRestore (getRestoreList [] q).items = Json.arr [] ∧
    jsonOfGoSlice jsonOfBackupCrd (getBackupListCrd [] q).items = Json.arr [] ∧
    jsonOfGoSlice jsonOfSchedule (getScheduleList [] q).items = Json.null := by
  have hempty : (getCustomResourceObjectList [] q).items = [] := by
    unfold getCustomResourceObjectList genericDataSelectWithFilter
    dsimp only
    simp only [List.filter_nil, insertionSort]
    unfold paginate
    split_ifs <;> simp
  refine ⟨?_, ?_, ?_, ?_, ?_, ?_⟩ <;>
    simp [getRestoreList, getBackupListCrd, getScheduleList, hempty, jsonOfGoSlice]

/-- The phase string a looked-up status value carries, under the same
checked-assertion semantics the parsers use. -/
def phaseFieldOf : Option Json → Option String
  | some (Json.obj st) =>
    match jsonLookup st "phase" with
    | some (Json.str s) => some s
    | _ => none
  | _ => none

/-- The status.phase string a raw detail payload carries. -/
def phaseStringOf (raw : Option Json) : Option String :=
  match goUnmarshalMap raw with
  | some fs => phaseFieldOf (jsonLookup fs "status")
  | none => none

theorem backupDetail_nsFold_status (l : List Json) (d : BackupDetail) :
    (l.foldl (fun d ns =>
      match ns with
      | Json.str s => { d with includedNamespaces := d.includedNamespaces.push s }
      | _ => d) d).status = d.status := by
  induction l generalizing d with
  | nil => rfl
  | cons x xs ih => cases x <;> simp [List.foldl_cons, ih]

theorem backupDetail_nsFold_phase (l : List Json) (d : BackupDetail) :
    (l.foldl (fun d ns =>
      match ns with
      | Json.str s => { d with includedNamespaces := d.includedNamespaces.push s }
      | _ => d) d).phase = d.phase := by
  induction l generalizing d with
  | nil => rfl
  | cons x xs ih => cases x <;> simp [List.foldl_cons, ih]

theorem restoreDetail_nsFold_status (l : List Json) (d : RestoreDetail) :
    (l.foldl (fun d ns =>
      match ns with
      | Json.str s => { d with includedNamespaces := d.includedNamespaces.push s }
      | _ => d) d).status = d.status := by
  induction l generalizing d with
  | nil => rfl
  | cons x xs ih => cases x <;> simp [List.foldl_cons, ih]

theorem restoreDetail_nsFold_phase (l : List Json) (d : RestoreDetail) :
    (l.foldl (fun d ns =>
      match ns with
      | Json.str s => { d with includedNamespaces := d.includedNamespaces.push s }
      | _ => d) d).phase = d.phase := by
  induction l generalizing d with
  | nil => rfl
  | cons x xs ih => cases x <;> simp [List.foldl_cons, ih]

set_option maxHeartbeats 1000000 in
theorem parseBackupDetailStatusBlock_phase (d : BackupDetail) (v : Option Json) :
    (parseBackupDetailStatusBlock d v).phase = (phaseFieldOf v).getD d.phase := by
  unfold parseBackupDetailStatusBlock phaseFieldOf
  repeat' split
  all_goals simp_all

set_option maxHeartbeats 1000000 in
theorem parseBackupDetailStatusBlock_status (d : BackupDetail) (v : Option Json) :
    (parseBackupDetailStatusBlock d v).status = (phaseFieldOf v).getD d.status := by
  unfold parseBackupDetailStatusBlock phaseFieldOf
  repeat' split
  all_goals simp_all

theorem parseBackupDetailSpecBlock_phase (d : BackupDetail) (v : Option Json) :
    (parseBackupDetailSpecBlock d v).phase = d.phase := by
  unfold parseBackupDetailSpecBlock
  repeat' split
  all_goals simp_all [backupDetail_nsFold_phase]

theorem parseBackupDetailSpecBlock_status (d : BackupDetail) (v : Option Json) :
    (parseBackupDetailSpecBlock d v).status = d.status := by
  unfold parseBackupDetailSpecBlock
  repeat' split
  all_goals simp_all [backupDetail_nsFold_status]

set_option maxHeartbeats 1000000 in
theorem parseRestoreDetailStatusBlock_phase (d : RestoreDetail) (v : Option Json) :
    (parseRestoreDetailStatusBlock d v).phase = (phaseFieldOf v).getD d.phase := by
  unfold parseRestoreDetailStatusBlock phaseFieldOf
  repeat' split
  all_goals simp_all

set_option maxHeartbeats 1000000 in
theorem parseRestoreDetailStatusBlock_status (d : RestoreDetail) (v : Option Json) :
    (parseRestoreDetailStatusBlock d v).status = (phaseFieldOf v).getD d.status := by
  unfold parseRestoreDetailStatusBlock phaseFieldOf
  repeat' split
  all_goals simp_all

theorem parseRestoreDetailSpecBlock_phase (d : RestoreDetail) (v : Option Json) :
    (parseRestoreDetailSpecBlock d v).phase = d.phase := by
  unfold parseRestoreDetailSpecBlock
  repeat' split
  all_goals simp_all [restoreDetail_nsFold_phase]

theorem parseRestoreDetailSpecBlock_status (d : RestoreDetail) (v : Option Json) :
    (parseRestoreDetailSpecBlock d v).status = d.status := by
  unfold parseRestoreDetailSpecBlock
  repeat' split
  all_goals simp_all [restoreDetail_nsFold_status]

theorem parseScheduleDetailStatusBlock_phase (d : ScheduleDetail) (v : Option Json) :
    (parseScheduleDetailStatusBlock d v).phase = (phaseFieldOf v).getD d.phase := by
  unfold parseScheduleDetailStatusBlock phaseFieldOf
  repeat' split
  all_goals simp_all

theorem parseScheduleDetailStatusBlock_status (d : ScheduleDetail) (v : Option Json) :
    (parseScheduleDetailStatusBlock d v).status = (phaseFieldOf v).getD d.status := by
  unfold parseScheduleDetailStatusBlock phaseFieldOf
  repeat' split
  all_goals simp_all

theorem parseScheduleDetailSpecBlock_phase (d : ScheduleDetail) (v : Option Json) :
    (parseScheduleDetailSpecBlock d v).phase = d.phase := by
  unfold parseScheduleDetailSpecBlock
  repeat' split
  all_goals simp_all

theorem parseScheduleDetailSpecBlock_status (d : ScheduleDetail) (v : Option Json) :
    (parseScheduleDetailSpecBlock d v).status = d.status := by
  unfold parseScheduleDetailSpecBlock
  repeat' split
  all_goals simp_all

/-- C9: every detail payload the parsers accept yields a detail whose
Status equals its Phase — both the status.phase string when present as a
string, both the empty string otherwise. -/
theorem detail_status_equals_phase :
    (∀ raw d, parseBackupDetail raw = some d →
      d.status = d.phase ∧ d.phase = (phaseStringOf raw).getD "") ∧
    (∀ raw d, parseRestoreDetail raw = some d →
      d.status = d.phase ∧ d.phase = (phaseStringOf raw).getD "") ∧
    (∀ raw d, parseScheduleDetail raw = some d →
      d.status = d.phase ∧ d.phase = (phaseStringOf raw).getD "") := by
  refine ⟨?_, ?_, ?_⟩
  · intro raw d h
    unfold parseBackupDetail at h
    unfold phaseStringOf
    cases hm : goUnmarshalMap raw with
    | none => rw [hm] at h; exact absurd h (by simp)
    | some fs =>
      rw [hm] at h
      dsimp only at h
      injection h with h
      subst h
      rw [parseBackupDetailSpecBlock_status, parseBackupDetailSpecBlock_phase,
        parseBackupDetailStatusBlock_status, parseBackupDetailStatusBlock_phase]
      cases hpf : phaseFieldOf (jsonLookup fs "status") <;> simp [hpf]
  · intro raw d h
    unfold parseRestoreDetail at h
    unfold phaseStringOf
    cases hm : goUnmarshalMap raw with
    | none => rw [hm] at h; exact absurd h (by simp)
    | some fs =>
      rw [hm] at h
      dsimp only at h
      injection h with h
      subst h
      rw [parseRestoreDetailSpecBlock_status, parseRestoreDetailSpecBlock_phase,
        parseRestoreDetailStatusBlock_status, parseRestoreDetailStatusBlock_phase]
      cases hpf : phaseFieldOf (jsonLookup fs "status") <;> simp [hpf]
  · intro raw d h
    unfold parseScheduleDetail at h
    unfold phaseStringOf
    cases hm : goUnmarshalMap raw with
    | none => rw [hm] at h; exact absurd h (by simp)
    | some fs =>
      rw [hm] at h
      dsimp only at h
      injection h with h
      subst h
      rw [parseScheduleDetailStatusBlock_status, parseScheduleDetailStatusBlock_phase,
        parseScheduleDetailSpecBlock_status, parseScheduleDetailSpecBlock_phase]
      cases hpf : phaseFieldOf (jsonLookup fs "status") <;> simp [hpf]

/-- C9 witness: a payload whose status.phase is "Completed" parses to a
detail whose Status and Phase both equal "Completed". -/
theorem detail_status_equals_phase_witness :
    parseBackupDetail
        (some (Json.obj [("status", Json.obj [("phase", Json.str "Completed")])]))
      = some { typeMeta := { kind := "Backup" }, status := "Completed",
               phase := "Completed" } ∧
    ({ typeMeta := { kind := "Backup" }, status := "Completed",
       phase := "Completed" } : BackupDetail).status
      = ({ typeMeta := { kind := "Backup" }, status := "Completed",
           phase := "Completed" } : BackupDetail).phase :=
  ⟨by decide,
   (detail_status_equals_phase.1
      (some (Json.obj [("status", Json.obj [("phase", Json.str "Completed")])]))
      { typeMeta := { kind := "Backup" }, status := "Completed", phase := "Completed" }
      (by decide)).1⟩
